import Mathlib

/-!
# PropChain property registry: a shallow embedding of src/contracts/lib/src/lib.rs

This file embeds the `propchain_contracts` ink! contract as pure Lean
functions over an explicit state record, and proves the specification
claims about it.

Modelling conventions:
* `AccountId` is `Nat`; `u64` / `u128` / timestamps are `Nat`.  The only
  arithmetic the contract performs is `property_count += 1` and
  `escrow_count += 1`; ink! contracts are built with `overflow-checks`
  enabled, so an increment at `u64::MAX` panics, which we model as a trap.
* Each `#[ink(message)]` taking `&mut self` becomes
  `State → Env → args → CallResult α × State`, where `Env` carries the
  caller identity, the block timestamp and the compliance oracle's
  behaviour for this call.  On an error or a trap the returned state is
  the input state exactly when the Rust code performed no store write
  before bailing out; atomicity is proved, not assumed.
* The cross-contract call in `check_compliance` is built with
  `.returns::<bool>().invoke()`; `invoke` panics if the call itself
  fails, so a transport/oracle failure is a trap (`CallResult.trap`),
  not an `Error` value.  The oracle is modelled as
  `AccountId → AccountId → Option Bool` (registry address, queried
  account); `none` is a failing call, `some b` a call returning `b`.
* The storage struct in lib.rs omits the `escrows` and `escrow_count`
  fields and the `Error` enum omits `EscrowNotFound` /
  `EscrowAlreadyReleased`, but the escrow message bodies in the same
  file use all four; we include them as those bodies use them.
* `update_metadata`, `approve` and `get_approved` are called by the
  repository's tests but their bodies are absent from src/; they are
  modelled from the spec (§4.1, §4.2) and marked as such.
-/

namespace PropChain

/-- Accounts are opaque identifiers; we model them as naturals. -/
abbrev AccountId := Nat

/-- `pub enum Error` of lib.rs.  The declared enum has the first five
variants; `EscrowNotFound` and `EscrowAlreadyReleased` are referenced by
the escrow message bodies in the same file and are included as used. -/
inductive Error where
  | PropertyNotFound
  | Unauthorized
  | InvalidMetadata
  | NotCompliant
  | ComplianceCheckFailed
  | EscrowNotFound
  | EscrowAlreadyReleased
deriving DecidableEq, Repr

/-- Outcome of one contract message: success, a returned `Err`, or a
panic/trap (e.g. `invoke()` on a failed cross-contract call, or an
arithmetic overflow under `overflow-checks`). -/
inductive CallResult (α : Type) where
  | ok (a : α)
  | err (e : Error)
  | trap
deriving DecidableEq, Repr

/-- `PropertyMetadata` from propchain_traits (opaque payload; only
`location` is ever inspected, by metadata validation). -/
structure PropertyMetadata where
  location : String
  size : Nat
  legal_description : String
  valuation : Nat
  documents_url : String
deriving DecidableEq, Repr

/-- `PropertyInfo` from propchain_traits. -/
structure PropertyInfo where
  id : Nat
  owner : AccountId
  metadata : PropertyMetadata
  registered_at : Nat
deriving DecidableEq, Repr

/-- `pub struct EscrowInfo` of lib.rs. -/
structure EscrowInfo where
  id : Nat
  property_id : Nat
  buyer : AccountId
  seller : AccountId
  amount : Nat
  released : Bool
deriving DecidableEq, Repr

/-- The contract storage.  `Mapping<u64, V>` becomes `Nat → Option V`;
`Mapping<AccountId, Vec<u64>>` is always read through
`unwrap_or_default()`, so it becomes a total function into lists with
`[]` as default.  `approvals` is Modelled from the spec: the Approval
Delegation map (spec §4.2) is absent from src/ (only tests exercise it). -/
structure State where
  properties : Nat → Option PropertyInfo
  owner_properties : AccountId → List Nat
  property_count : Nat
  compliance_registry : Option AccountId
  owner : AccountId
  escrows : Nat → Option EscrowInfo
  escrow_count : Nat
  approvals : Nat → Option AccountId

/-- Per-call environment: caller identity, block timestamp, and the
compliance oracle's behaviour (first argument: the registry address
called; `none` models a failing cross-contract call). -/
structure Env where
  caller : AccountId
  timestamp : Nat
  oracle : AccountId → AccountId → Option Bool

/-- `u64::MAX + 1`. -/
def u64Mod : Nat := 2 ^ 64

/-- Constructor `new()`. -/
def State.new (deployer : AccountId) : State where
  properties := fun _ => none
  owner_properties := fun _ => []
  property_count := 0
  compliance_registry := none
  owner := deployer
  escrows := fun _ => none
  escrow_count := 0
  approvals := fun _ => none

/-- Constructor `new_with_compliance(compliance_registry)`. -/
def State.newWithCompliance (deployer registry : AccountId) : State :=
  { State.new deployer with compliance_registry := some registry }

/-- `set_compliance_registry` (owner only). -/
def set_compliance_registry (s : State) (env : Env) (registry : AccountId) :
    CallResult Unit × State :=
  if env.caller ≠ s.owner then (.err .Unauthorized, s)
  else (.ok (), { s with compliance_registry := some registry })

/-- `get_compliance_registry`. -/
def get_compliance_registry (s : State) : Option AccountId :=
  s.compliance_registry

/-- Internal helper `check_compliance`.  When a registry is configured it
issues the cross-contract call `is_compliant(account)` via
`.returns::<bool>().invoke()`: a failing call makes `invoke` panic
(trap); an answer `false` maps to `NotCompliant`; `true` succeeds.
With no registry configured it always succeeds. -/
def check_compliance (s : State) (env : Env) (account : AccountId) :
    CallResult Unit :=
  match s.compliance_registry with
  | some compliance_addr =>
    match env.oracle compliance_addr account with
    | none => .trap
    | some true => .ok ()
    | some false => .err .NotCompliant
  | none => .ok ()

/-- `register_property(metadata)`. -/
def register_property (s : State) (env : Env) (metadata : PropertyMetadata) :
    CallResult Nat × State :=
  let caller := env.caller
  match check_compliance s env caller with
  | .err e => (.err e, s)
  | .trap => (.trap, s)
  | .ok _ =>
    if s.property_count + 1 ≥ u64Mod then (.trap, s)
    else
      let property_count := s.property_count + 1
      let property_id := property_count
      let property_info : PropertyInfo :=
        ⟨property_id, caller, metadata, env.timestamp⟩
      let owner_props := s.owner_properties caller ++ [property_id]
      (.ok property_id,
        { s with
            property_count := property_count
            properties := Function.update s.properties property_id (some property_info)
            owner_properties := Function.update s.owner_properties caller owner_props })

/-- `transfer_property(property_id, to)` (parameter `to` renamed `toAcc`: `to` is reserved in Lean).  The authorization check in
src/ is owner-only (`property.owner != caller`).  The final
approval-clearing write is Modelled from the spec (§4.1: a transfer
"clears any approval"): the Approval Delegation component is absent from
src/, so its interaction with transfer is taken from the spec's words. -/
def transfer_property (s : State) (env : Env) (property_id : Nat) (toAcc : AccountId) :
    CallResult Unit × State :=
  let caller := env.caller
  match s.properties property_id with
  | none => (.err .PropertyNotFound, s)
  | some property =>
    if property.owner ≠ caller then (.err .Unauthorized, s)
    else
      match check_compliance s env toAcc with
      | .err e => (.err e, s)
      | .trap => (.trap, s)
      | .ok _ =>
        let current_owner_props :=
          (s.owner_properties caller).filter (fun id => id ≠ property_id)
        let owner_properties1 :=
          Function.update s.owner_properties caller current_owner_props
        let new_owner_props := owner_properties1 toAcc ++ [property_id]
        let owner_properties2 :=
          Function.update owner_properties1 toAcc new_owner_props
        (.ok (),
          { s with
              owner_properties := owner_properties2
              properties := Function.update s.properties property_id
                (some { property with owner := toAcc })
              approvals := Function.update s.approvals property_id none })

/-- `get_property(property_id)`. -/
def get_property (s : State) (property_id : Nat) : Option PropertyInfo :=
  s.properties property_id

/-- `get_owner_properties(owner)`. -/
def get_owner_properties (s : State) (owner : AccountId) : List Nat :=
  s.owner_properties owner

/-- Message `property_count()`. -/
def property_count (s : State) : Nat :=
  s.property_count

/-- Modelled from the spec: `update_metadata(property_id, metadata)` is
called by the repository's tests but its body is absent from src/.
Spec §4.1: fails with `PropertyNotFound` / `Unauthorized` (owner-only,
delegate NOT sufficient); fails with `InvalidMetadata` if
`metadata.location` is empty; otherwise overwrites metadata. -/
def update_metadata (s : State) (env : Env) (property_id : Nat)
    (metadata : PropertyMetadata) : CallResult Unit × State :=
  match s.properties property_id with
  | none => (.err .PropertyNotFound, s)
  | some property =>
    if property.owner ≠ env.caller then (.err .Unauthorized, s)
    else if metadata.location = "" then (.err .InvalidMetadata, s)
    else
      (.ok (),
        { s with
            properties := Function.update s.properties property_id
              (some { property with metadata := metadata }) })

/-- Modelled from the spec: `approve(property_id, delegate_option)` is
called by the repository's tests but its body is absent from src/.
Spec §4.2: fails with `PropertyNotFound` / `Unauthorized` (owner-only);
`some account` sets the delegation, `none` clears it. -/
def approve (s : State) (env : Env) (property_id : Nat)
    (delegate : Option AccountId) : CallResult Unit × State :=
  match s.properties property_id with
  | none => (.err .PropertyNotFound, s)
  | some property =>
    if property.owner ≠ env.caller then (.err .Unauthorized, s)
    else (.ok (), { s with approvals := Function.update s.approvals property_id delegate })

/-- Modelled from the spec: `get_approved(property_id)` pure read
(spec §4.2); absent from src/. -/
def get_approved (s : State) (property_id : Nat) : Option AccountId :=
  s.approvals property_id

/-- `create_escrow(property_id, amount)`. -/
def create_escrow (s : State) (env : Env) (property_id : Nat) (amount : Nat) :
    CallResult Nat × State :=
  let caller := env.caller
  match s.properties property_id with
  | none => (.err .PropertyNotFound, s)
  | some property =>
    if property.owner ≠ caller then (.err .Unauthorized, s)
    else if s.escrow_count + 1 ≥ u64Mod then (.trap, s)
    else
      let escrow_count := s.escrow_count + 1
      let escrow_id := escrow_count
      let escrow_info : EscrowInfo :=
        ⟨escrow_id, property_id, caller, property.owner, amount, false⟩
      (.ok escrow_id,
        { s with
            escrow_count := escrow_count
            escrows := Function.update s.escrows escrow_id (some escrow_info) })

/-- `release_escrow(escrow_id)`: only the buyer may release; the embedded
`self.transfer_property(escrow.property_id, escrow.buyer)?` runs with the
same caller; its failure propagates unwrapped and the `released := true`
write happens only after it succeeds. -/
def release_escrow (s : State) (env : Env) (escrow_id : Nat) :
    CallResult Unit × State :=
  let caller := env.caller
  match s.escrows escrow_id with
  | none => (.err .EscrowNotFound, s)
  | some escrow =>
    if escrow.released then (.err .EscrowAlreadyReleased, s)
    else if escrow.buyer ≠ caller then (.err .Unauthorized, s)
    else
      match transfer_property s env escrow.property_id escrow.buyer with
      | (.err e, s1) => (.err e, s1)
      | (.trap, s1) => (.trap, s1)
      | (.ok _, s1) =>
        (.ok (),
          { s1 with
              escrows := Function.update s1.escrows escrow_id
                (some { escrow with released := true }) })

/-- `refund_escrow(escrow_id)`: only the seller may refund; marks the
escrow released (terminal) with no property movement. -/
def refund_escrow (s : State) (env : Env) (escrow_id : Nat) :
    CallResult Unit × State :=
  let caller := env.caller
  match s.escrows escrow_id with
  | none => (.err .EscrowNotFound, s)
  | some escrow =>
    if escrow.released then (.err .EscrowAlreadyReleased, s)
    else if escrow.seller ≠ caller then (.err .Unauthorized, s)
    else
      (.ok (),
        { s with
            escrows := Function.update s.escrows escrow_id
              (some { escrow with released := true }) })

/-- `get_escrow(escrow_id)`. -/
def get_escrow (s : State) (escrow_id : Nat) : Option EscrowInfo :=
  s.escrows escrow_id

/-- Return values of the public messages. -/
inductive Ret where
  | unit
  | id (n : Nat)
deriving DecidableEq, Repr

/-- The public mutating operation surface. -/
inductive Op where
  | register (metadata : PropertyMetadata)
  | transfer (property_id : Nat) (toAcc : AccountId)
  | updateMeta (property_id : Nat) (metadata : PropertyMetadata)
  | approval (property_id : Nat) (delegate : Option AccountId)
  | createEscrow (property_id : Nat) (amount : Nat)
  | releaseEscrow (escrow_id : Nat)
  | refundEscrow (escrow_id : Nat)
  | setRegistry (registry : AccountId)

/-- Lift a unit-returning message to `Ret`. -/
def liftUnit (r : CallResult Unit × State) : CallResult Ret × State :=
  match r with
  | (.ok _, s) => (.ok .unit, s)
  | (.err e, s) => (.err e, s)
  | (.trap, s) => (.trap, s)

/-- Lift an id-returning message to `Ret`. -/
def liftId (r : CallResult Nat × State) : CallResult Ret × State :=
  match r with
  | (.ok n, s) => (.ok (.id n), s)
  | (.err e, s) => (.err e, s)
  | (.trap, s) => (.trap, s)

/-- One public call: dispatch to the corresponding message. -/
def step (s : State) (env : Env) : Op → CallResult Ret × State
  | .register metadata => liftId (register_property s env metadata)
  | .transfer property_id toAcc => liftUnit (transfer_property s env property_id toAcc)
  | .updateMeta property_id metadata => liftUnit (update_metadata s env property_id metadata)
  | .approval property_id delegate => liftUnit (approve s env property_id delegate)
  | .createEscrow property_id amount => liftId (create_escrow s env property_id amount)
  | .releaseEscrow escrow_id => liftUnit (release_escrow s env escrow_id)
  | .refundEscrow escrow_id => liftUnit (refund_escrow s env escrow_id)
  | .setRegistry registry => liftUnit (set_compliance_registry s env registry)

/-- The state after one call. -/
def runStep (s : State) (c : Env × Op) : State :=
  (step s c.1 c.2).2

/-- The state after a sequence of calls. -/
def run (s : State) : List (Env × Op) → State
  | [] => s
  | c :: t => run (runStep s c) t

/-- States reachable from a freshly constructed contract by public calls
(with any outcomes; failed calls leave the state unchanged, as proved
below). -/
inductive Reachable : State → Prop where
  | init (deployer : AccountId) : Reachable (State.new deployer)
  | initWithCompliance (deployer registry : AccountId) :
      Reachable (State.newWithCompliance deployer registry)
  | step {s : State} (c : Env × Op) : Reachable s → Reachable (runStep s c)

/-! ## Failure atomicity: a message that does not succeed leaves the state untouched -/

/-- The call did not succeed (returned `Err` or trapped). -/
def notOk {α : Type} : CallResult α → Prop
  | .ok _ => False
  | .err _ => True
  | .trap => True

theorem notOk_ok {α : Type} (a : α) : notOk (CallResult.ok a) = False := rfl

theorem notOk_err {α : Type} (e : Error) : notOk (CallResult.err e : CallResult α) = True := rfl

theorem notOk_trap {α : Type} : notOk (CallResult.trap : CallResult α) = True := rfl

theorem set_compliance_registry_fail (s : State) (env : Env) (registry : AccountId) :
    notOk (set_compliance_registry s env registry).1 →
    (set_compliance_registry s env registry).2 = s := by
  unfold set_compliance_registry
  try dsimp only
  split
  · intro _; rfl
  · intro h; exact False.elim h

theorem register_property_fail (s : State) (env : Env) (m : PropertyMetadata) :
    notOk (register_property s env m).1 → (register_property s env m).2 = s := by
  unfold register_property
  try dsimp only
  repeat' split
  all_goals intro h
  all_goals first | rfl | exact False.elim h

theorem transfer_property_fail (s : State) (env : Env) (property_id : Nat) (toAcc : AccountId) :
    notOk (transfer_property s env property_id toAcc).1 →
    (transfer_property s env property_id toAcc).2 = s := by
  unfold transfer_property
  try dsimp only
  repeat' split
  all_goals intro h
  all_goals first | rfl | exact False.elim h

theorem update_metadata_fail (s : State) (env : Env) (property_id : Nat) (m : PropertyMetadata) :
    notOk (update_metadata s env property_id m).1 →
    (update_metadata s env property_id m).2 = s := by
  unfold update_metadata
  try dsimp only
  repeat' split
  all_goals intro h
  all_goals first | rfl | exact False.elim h

theorem approve_fail (s : State) (env : Env) (property_id : Nat) (delegate : Option AccountId) :
    notOk (approve s env property_id delegate).1 →
    (approve s env property_id delegate).2 = s := by
  unfold approve
  try dsimp only
  repeat' split
  all_goals intro h
  all_goals first | rfl | exact False.elim h

theorem create_escrow_fail (s : State) (env : Env) (property_id amount : Nat) :
    notOk (create_escrow s env property_id amount).1 →
    (create_escrow s env property_id amount).2 = s := by
  unfold create_escrow
  try dsimp only
  repeat' split
  all_goals intro h
  all_goals first | rfl | exact False.elim h

theorem release_escrow_fail (s : State) (env : Env) (escrow_id : Nat) :
    notOk (release_escrow s env escrow_id).1 → (release_escrow s env escrow_id).2 = s := by
  unfold release_escrow
  try dsimp only
  split
  · intro _; rfl
  case _ escrow heq =>
    split
    · intro _; rfl
    split
    · intro _; rfl
    split
    case _ e s1 htr =>
      intro _
      have h2 := transfer_property_fail s env escrow.property_id escrow.buyer
        (by rw [htr]; trivial)
      rw [htr] at h2
      exact h2
    case _ s1 htr =>
      intro _
      have h2 := transfer_property_fail s env escrow.property_id escrow.buyer
        (by rw [htr]; trivial)
      rw [htr] at h2
      exact h2
    case _ a s1 htr =>
      intro h
      exact False.elim h

theorem refund_escrow_fail (s : State) (env : Env) (escrow_id : Nat) :
    notOk (refund_escrow s env escrow_id).1 → (refund_escrow s env escrow_id).2 = s := by
  unfold refund_escrow
  try dsimp only
  repeat' split
  all_goals intro h
  all_goals first | rfl | exact False.elim h

theorem liftUnit_snd (r : CallResult Unit × State) : (liftUnit r).2 = r.2 := by
  obtain ⟨a, b⟩ := r; cases a <;> rfl

theorem liftId_snd (r : CallResult Nat × State) : (liftId r).2 = r.2 := by
  obtain ⟨a, b⟩ := r; cases a <;> rfl

theorem liftUnit_notOk (r : CallResult Unit × State) :
    notOk (liftUnit r).1 → notOk r.1 := by
  obtain ⟨a, b⟩ := r; cases a <;> intro h <;> first | exact False.elim h | trivial

theorem liftId_notOk (r : CallResult Nat × State) :
    notOk (liftId r).1 → notOk r.1 := by
  obtain ⟨a, b⟩ := r; cases a <;> intro h <;> first | exact False.elim h | trivial

theorem step_fail (s : State) (env : Env) (op : Op) :
    notOk (step s env op).1 → (step s env op).2 = s := by
  cases op with
  | register m =>
    intro h
    rw [step, liftId_snd]
    exact register_property_fail s env m (liftId_notOk _ (by rw [step] at h; exact h))
  | transfer pid toAcc =>
    intro h
    rw [step, liftUnit_snd]
    exact transfer_property_fail s env pid toAcc (liftUnit_notOk _ (by rw [step] at h; exact h))
  | updateMeta pid m =>
    intro h
    rw [step, liftUnit_snd]
    exact update_metadata_fail s env pid m (liftUnit_notOk _ (by rw [step] at h; exact h))
  | approval pid d =>
    intro h
    rw [step, liftUnit_snd]
    exact approve_fail s env pid d (liftUnit_notOk _ (by rw [step] at h; exact h))
  | createEscrow pid amount =>
    intro h
    rw [step, liftId_snd]
    exact create_escrow_fail s env pid amount (liftId_notOk _ (by rw [step] at h; exact h))
  | releaseEscrow eid =>
    intro h
    rw [step, liftUnit_snd]
    exact release_escrow_fail s env eid (liftUnit_notOk _ (by rw [step] at h; exact h))
  | refundEscrow eid =>
    intro h
    rw [step, liftUnit_snd]
    exact refund_escrow_fail s env eid (liftUnit_notOk _ (by rw [step] at h; exact h))
  | setRegistry registry =>
    intro h
    rw [step, liftUnit_snd]
    exact set_compliance_registry_fail s env registry
      (liftUnit_notOk _ (by rw [step] at h; exact h))

/-! ## The record-store / ownership-index invariant -/

/-- Composite invariant maintained by every public operation:
record↔index consistency plus freshness bounds on assigned ids. -/
structure RegInv (s : State) : Prop where
  rec_index : ∀ p r, s.properties p = some r → p ∈ s.owner_properties r.owner
  index_rec : ∀ p a, p ∈ s.owner_properties a →
    ∃ r, s.properties p = some r ∧ r.owner = a
  prop_bound : ∀ p r, s.properties p = some r → 1 ≤ p ∧ p ≤ s.property_count
  escrow_bound : ∀ e r, s.escrows e = some r → 1 ≤ e ∧ e ≤ s.escrow_count

theorem mem_filter_ne (l : List Nat) (p q : Nat) :
    p ∈ l.filter (fun id => id ≠ q) ↔ p ∈ l ∧ p ≠ q := by
  simp [List.mem_filter]

theorem inv_register (s : State) (env : Env) (m : PropertyMetadata) (hInv : RegInv s) :
    RegInv (register_property s env m).2 := by
  unfold register_property
  try dsimp only
  repeat' split
  any_goals exact hInv
  refine ⟨?_, ?_, ?_, ?_⟩
  · intro p r hp
    dsimp only at hp ⊢
    by_cases hpn : p = s.property_count + 1
    · subst hpn
      rw [Function.update_same] at hp
      injection hp with hr
      subst hr
      rw [Function.update_same]
      exact List.mem_append.mpr (Or.inr (List.mem_singleton.mpr rfl))
    · rw [Function.update_noteq hpn] at hp
      have hmem := hInv.rec_index p r hp
      by_cases hoc : r.owner = env.caller
      · rw [hoc, Function.update_same]
        exact List.mem_append.mpr (Or.inl (hoc ▸ hmem))
      · rw [Function.update_noteq hoc]
        exact hmem
  · intro p a hp
    dsimp only at hp ⊢
    by_cases hac : a = env.caller
    · subst hac
      rw [Function.update_same] at hp
      rcases List.mem_append.mp hp with hold | hnew
      · obtain ⟨r, hr, hro⟩ := hInv.index_rec p _ hold
        have hpb := hInv.prop_bound p r hr
        have hne : p ≠ s.property_count + 1 := by omega
        exact ⟨r, by rw [Function.update_noteq hne]; exact hr, hro⟩
      · have hpn : p = s.property_count + 1 := List.mem_singleton.mp hnew
        subst hpn
        exact ⟨_, by rw [Function.update_same], rfl⟩
    · rw [Function.update_noteq hac] at hp
      obtain ⟨r, hr, hro⟩ := hInv.index_rec p a hp
      have hpb := hInv.prop_bound p r hr
      have hne : p ≠ s.property_count + 1 := by omega
      exact ⟨r, by rw [Function.update_noteq hne]; exact hr, hro⟩
  · intro p r hp
    dsimp only at hp ⊢
    by_cases hpn : p = s.property_count + 1
    · subst hpn; omega
    · rw [Function.update_noteq hpn] at hp
      have := hInv.prop_bound p r hp
      omega
  · intro e r he
    exact hInv.escrow_bound e r he

theorem inv_transfer (s : State) (env : Env) (property_id : Nat) (toAcc : AccountId)
    (hInv : RegInv s) : RegInv (transfer_property s env property_id toAcc).2 := by
  unfold transfer_property
  try dsimp only
  split
  · exact hInv
  case _ property hp =>
    split
    · exact hInv
    case _ hauth =>
      have howner : property.owner = env.caller := by
        by_contra hne
        exact hauth hne
      split
      · exact hInv
      · exact hInv
      refine ⟨?_, ?_, ?_, ?_⟩
      · intro p r hp2
        dsimp only at hp2 ⊢
        by_cases hpn : p = property_id
        · subst hpn
          rw [Function.update_same] at hp2
          injection hp2 with hr
          subst hr
          dsimp only
          rw [Function.update_same]
          exact List.mem_append.mpr (Or.inr (List.mem_singleton.mpr rfl))
        · rw [Function.update_noteq hpn] at hp2
          have hmem := hInv.rec_index p r hp2
          by_cases hat : r.owner = toAcc
          · rw [hat, Function.update_same]
            refine List.mem_append.mpr (Or.inl ?_)
            by_cases htc : toAcc = env.caller
            · rw [htc, Function.update_same, mem_filter_ne]
              exact ⟨by rw [← htc, ← hat]; exact hmem, hpn⟩
            · rw [Function.update_noteq htc]
              rw [← hat]; exact hmem
          · rw [Function.update_noteq hat]
            by_cases hrc : r.owner = env.caller
            · rw [hrc, Function.update_same, mem_filter_ne]
              exact ⟨by rw [← hrc]; exact hmem, hpn⟩
            · rw [Function.update_noteq hrc]
              exact hmem
      · intro p a hpa
        dsimp only at hpa ⊢
        by_cases hat : a = toAcc
        · subst hat
          rw [Function.update_same] at hpa
          rcases List.mem_append.mp hpa with hpa1 | hpa1
          · by_cases htc : a = env.caller
            · rw [htc, Function.update_same, mem_filter_ne] at hpa1
              obtain ⟨r, hr, hro⟩ := hInv.index_rec p _ hpa1.1
              refine ⟨r, ?_, by rw [hro, ← htc]⟩
              rw [Function.update_noteq hpa1.2]
              exact hr
            · rw [Function.update_noteq htc] at hpa1
              obtain ⟨r, hr, hro⟩ := hInv.index_rec p _ hpa1
              have hpn : p ≠ property_id := by
                intro hpn
                subst hpn
                rw [hp] at hr
                injection hr with hr2
                subst hr2
                exact htc (hro ▸ howner)
              refine ⟨r, ?_, hro⟩
              rw [Function.update_noteq hpn]
              exact hr
          · have hpn : p = property_id := List.mem_singleton.mp hpa1
            subst hpn
            exact ⟨_, by rw [Function.update_same], rfl⟩
        · rw [Function.update_noteq hat] at hpa
          by_cases hac : a = env.caller
          · rw [hac, Function.update_same, mem_filter_ne] at hpa
            obtain ⟨r, hr, hro⟩ := hInv.index_rec p _ hpa.1
            refine ⟨r, ?_, by rw [hro, ← hac]⟩
            rw [Function.update_noteq hpa.2]
            exact hr
          · rw [Function.update_noteq hac] at hpa
            obtain ⟨r, hr, hro⟩ := hInv.index_rec p _ hpa
            have hpn : p ≠ property_id := by
              intro hpn
              subst hpn
              rw [hp] at hr
              injection hr with hr2
              subst hr2
              exact hac (hro ▸ howner)
            refine ⟨r, ?_, hro⟩
            rw [Function.update_noteq hpn]
            exact hr
      · intro p r hp2
        dsimp only at hp2 ⊢
        by_cases hpn : p = property_id
        · subst hpn
          exact hInv.prop_bound _ _ hp
        · rw [Function.update_noteq hpn] at hp2
          exact hInv.prop_bound p r hp2
      · intro e r he
        exact hInv.escrow_bound e r he

/-! ## Frame lemmas: fields untouched by each message -/

theorem register_property_frame (s : State) (env : Env) (m : PropertyMetadata) :
    ((register_property s env m).2).escrows = s.escrows ∧
    ((register_property s env m).2).escrow_count = s.escrow_count ∧
    ((register_property s env m).2).compliance_registry = s.compliance_registry ∧
    ((register_property s env m).2).owner = s.owner ∧
    ((register_property s env m).2).approvals = s.approvals := by
  unfold register_property
  try dsimp only
  repeat' split
  all_goals exact ⟨rfl, rfl, rfl, rfl, rfl⟩

theorem transfer_property_frame (s : State) (env : Env) (property_id : Nat) (toAcc : AccountId) :
    ((transfer_property s env property_id toAcc).2).property_count = s.property_count ∧
    ((transfer_property s env property_id toAcc).2).escrows = s.escrows ∧
    ((transfer_property s env property_id toAcc).2).escrow_count = s.escrow_count ∧
    ((transfer_property s env property_id toAcc).2).compliance_registry = s.compliance_registry ∧
    ((transfer_property s env property_id toAcc).2).owner = s.owner := by
  unfold transfer_property
  try dsimp only
  repeat' split
  all_goals exact ⟨rfl, rfl, rfl, rfl, rfl⟩

theorem update_metadata_frame (s : State) (env : Env) (property_id : Nat) (m : PropertyMetadata) :
    ((update_metadata s env property_id m).2).owner_properties = s.owner_properties ∧
    ((update_metadata s env property_id m).2).property_count = s.property_count ∧
    ((update_metadata s env property_id m).2).escrows = s.escrows ∧
    ((update_metadata s env property_id m).2).escrow_count = s.escrow_count ∧
    ((update_metadata s env property_id m).2).compliance_registry = s.compliance_registry ∧
    ((update_metadata s env property_id m).2).owner = s.owner ∧
    ((update_metadata s env property_id m).2).approvals = s.approvals := by
  unfold update_metadata
  try dsimp only
  repeat' split
  all_goals exact ⟨rfl, rfl, rfl, rfl, rfl, rfl, rfl⟩

theorem approve_frame (s : State) (env : Env) (property_id : Nat) (delegate : Option AccountId) :
    ((approve s env property_id delegate).2).properties = s.properties ∧
    ((approve s env property_id delegate).2).owner_properties = s.owner_properties ∧
    ((approve s env property_id delegate).2).property_count = s.property_count ∧
    ((approve s env property_id delegate).2).escrows = s.escrows ∧
    ((approve s env property_id delegate).2).escrow_count = s.escrow_count ∧
    ((approve s env property_id delegate).2).compliance_registry = s.compliance_registry ∧
    ((approve s env property_id delegate).2).owner = s.owner := by
  unfold approve
  try dsimp only
  repeat' split
  all_goals exact ⟨rfl, rfl, rfl, rfl, rfl, rfl, rfl⟩

theorem create_escrow_frame (s : State) (env : Env) (property_id amount : Nat) :
    ((create_escrow s env property_id amount).2).properties = s.properties ∧
    ((create_escrow s env property_id amount).2).owner_properties = s.owner_properties ∧
    ((create_escrow s env property_id amount).2).property_count = s.property_count ∧
    ((create_escrow s env property_id amount).2).compliance_registry = s.compliance_registry ∧
    ((create_escrow s env property_id amount).2).owner = s.owner ∧
    ((create_escrow s env property_id amount).2).approvals = s.approvals := by
  unfold create_escrow
  try dsimp only
  repeat' split
  all_goals exact ⟨rfl, rfl, rfl, rfl, rfl, rfl⟩

theorem refund_escrow_frame (s : State) (env : Env) (escrow_id : Nat) :
    ((refund_escrow s env escrow_id).2).properties = s.properties ∧
    ((refund_escrow s env escrow_id).2).owner_properties = s.owner_properties ∧
    ((refund_escrow s env escrow_id).2).property_count = s.property_count ∧
    ((refund_escrow s env escrow_id).2).escrow_count = s.escrow_count ∧
    ((refund_escrow s env escrow_id).2).compliance_registry = s.compliance_registry ∧
    ((refund_escrow s env escrow_id).2).owner = s.owner ∧
    ((refund_escrow s env escrow_id).2).approvals = s.approvals := by
  unfold refund_escrow
  try dsimp only
  repeat' split
  all_goals exact ⟨rfl, rfl, rfl, rfl, rfl, rfl, rfl⟩

theorem release_escrow_frame (s : State) (env : Env) (escrow_id : Nat) :
    ((release_escrow s env escrow_id).2).property_count = s.property_count ∧
    ((release_escrow s env escrow_id).2).escrow_count = s.escrow_count ∧
    ((release_escrow s env escrow_id).2).compliance_registry = s.compliance_registry ∧
    ((release_escrow s env escrow_id).2).owner = s.owner := by
  unfold release_escrow
  try dsimp only
  split
  · exact ⟨rfl, rfl, rfl, rfl⟩
  case _ escrow heq =>
    split
    · exact ⟨rfl, rfl, rfl, rfl⟩
    split
    · exact ⟨rfl, rfl, rfl, rfl⟩
    split
    case _ e s1 htr =>
      have h2 := transfer_property_frame s env escrow.property_id escrow.buyer
      rw [htr] at h2
      exact ⟨h2.1, h2.2.2.1, h2.2.2.2.1, h2.2.2.2.2⟩
    case _ s1 htr =>
      have h2 := transfer_property_frame s env escrow.property_id escrow.buyer
      rw [htr] at h2
      exact ⟨h2.1, h2.2.2.1, h2.2.2.2.1, h2.2.2.2.2⟩
    case _ a s1 htr =>
      have h2 := transfer_property_frame s env escrow.property_id escrow.buyer
      rw [htr] at h2
      exact ⟨h2.1, h2.2.2.1, h2.2.2.2.1, h2.2.2.2.2⟩

theorem set_compliance_registry_frame (s : State) (env : Env) (registry : AccountId) :
    ((set_compliance_registry s env registry).2).properties = s.properties ∧
    ((set_compliance_registry s env registry).2).owner_properties = s.owner_properties ∧
    ((set_compliance_registry s env registry).2).property_count = s.property_count ∧
    ((set_compliance_registry s env registry).2).escrows = s.escrows ∧
    ((set_compliance_registry s env registry).2).escrow_count = s.escrow_count ∧
    ((set_compliance_registry s env registry).2).owner = s.owner ∧
    ((set_compliance_registry s env registry).2).approvals = s.approvals := by
  unfold set_compliance_registry
  split
  · exact ⟨rfl, rfl, rfl, rfl, rfl, rfl, rfl⟩
  · exact ⟨rfl, rfl, rfl, rfl, rfl, rfl, rfl⟩

theorem inv_update_metadata (s : State) (env : Env) (property_id : Nat)
    (m : PropertyMetadata) (hInv : RegInv s) :
    RegInv (update_metadata s env property_id m).2 := by
  unfold update_metadata
  try dsimp only
  split
  · exact hInv
  case _ property hp =>
    split
    · exact hInv
    split
    · exact hInv
    refine ⟨?_, ?_, ?_, ?_⟩
    · intro p r hp2
      dsimp only at hp2 ⊢
      by_cases hpn : p = property_id
      · subst hpn
        rw [Function.update_same] at hp2
        injection hp2 with hr
        subst hr
        dsimp only
        exact hInv.rec_index _ _ hp
      · rw [Function.update_noteq hpn] at hp2
        exact hInv.rec_index p r hp2
    · intro p a hpa
      dsimp only at hpa ⊢
      obtain ⟨r, hr, hro⟩ := hInv.index_rec p a hpa
      by_cases hpn : p = property_id
      · subst hpn
        rw [hp] at hr
        injection hr with hr2
        subst hr2
        exact ⟨{ property with metadata := m }, by rw [Function.update_same], hro⟩
      · exact ⟨r, by rw [Function.update_noteq hpn]; exact hr, hro⟩
    · intro p r hp2
      dsimp only at hp2 ⊢
      by_cases hpn : p = property_id
      · subst hpn
        exact hInv.prop_bound _ _ hp
      · rw [Function.update_noteq hpn] at hp2
        exact hInv.prop_bound p r hp2
    · intro e r he
      exact hInv.escrow_bound e r he

theorem inv_approve (s : State) (env : Env) (property_id : Nat)
    (delegate : Option AccountId) (hInv : RegInv s) :
    RegInv (approve s env property_id delegate).2 := by
  unfold approve
  try dsimp only
  repeat' split
  all_goals exact ⟨hInv.rec_index, hInv.index_rec, hInv.prop_bound, hInv.escrow_bound⟩

theorem inv_set_compliance_registry (s : State) (env : Env) (registry : AccountId)
    (hInv : RegInv s) : RegInv (set_compliance_registry s env registry).2 := by
  unfold set_compliance_registry
  split
  all_goals exact ⟨hInv.rec_index, hInv.index_rec, hInv.prop_bound, hInv.escrow_bound⟩

theorem inv_create_escrow (s : State) (env : Env) (property_id amount : Nat)
    (hInv : RegInv s) : RegInv (create_escrow s env property_id amount).2 := by
  unfold create_escrow
  try dsimp only
  repeat' split
  any_goals exact hInv
  refine ⟨hInv.rec_index, hInv.index_rec, hInv.prop_bound, ?_⟩
  intro e r he
  dsimp only at he ⊢
  by_cases hen : e = s.escrow_count + 1
  · subst hen
    omega
  · rw [Function.update_noteq hen] at he
    have := hInv.escrow_bound e r he
    omega

theorem inv_refund_escrow (s : State) (env : Env) (escrow_id : Nat)
    (hInv : RegInv s) : RegInv (refund_escrow s env escrow_id).2 := by
  unfold refund_escrow
  try dsimp only
  split
  · exact hInv
  case _ escrow heq =>
    split
    · exact hInv
    split
    · exact hInv
    refine ⟨hInv.rec_index, hInv.index_rec, hInv.prop_bound, ?_⟩
    intro e r he
    dsimp only at he ⊢
    by_cases hen : e = escrow_id
    · subst hen
      exact hInv.escrow_bound _ _ heq
    · rw [Function.update_noteq hen] at he
      exact hInv.escrow_bound e r he

theorem inv_release_escrow (s : State) (env : Env) (escrow_id : Nat)
    (hInv : RegInv s) : RegInv (release_escrow s env escrow_id).2 := by
  unfold release_escrow
  try dsimp only
  split
  · exact hInv
  case _ escrow heq =>
    split
    · exact hInv
    split
    · exact hInv
    split
    case _ e s1 htr =>
      have h2 := transfer_property_fail s env escrow.property_id escrow.buyer
        (by rw [htr]; trivial)
      rw [htr] at h2
      dsimp only at h2
      rw [h2]
      exact hInv
    case _ s1 htr =>
      have h2 := transfer_property_fail s env escrow.property_id escrow.buyer
        (by rw [htr]; trivial)
      rw [htr] at h2
      dsimp only at h2
      rw [h2]
      exact hInv
    case _ a s1 htr =>
      have hInv1 := inv_transfer s env escrow.property_id escrow.buyer hInv
      rw [htr] at hInv1
      dsimp only at hInv1
      have hfr := transfer_property_frame s env escrow.property_id escrow.buyer
      rw [htr] at hfr
      dsimp only at hfr
      refine ⟨hInv1.rec_index, hInv1.index_rec, ?_, ?_⟩
      · intro p r hp
        exact hInv1.prop_bound p r hp
      · intro e r he
        dsimp only at he ⊢
        by_cases hen : e = escrow_id
        · subst hen
          have := hInv.escrow_bound _ _ heq
          rw [hfr.2.2.1]
          exact this
        · rw [Function.update_noteq hen] at he
          exact hInv1.escrow_bound e r he

theorem inv_step (s : State) (env : Env) (op : Op) (hInv : RegInv s) :
    RegInv (step s env op).2 := by
  cases op with
  | register m =>
    rw [step, liftId_snd]
    exact inv_register s env m hInv
  | transfer pid toAcc =>
    rw [step, liftUnit_snd]
    exact inv_transfer s env pid toAcc hInv
  | updateMeta pid m =>
    rw [step, liftUnit_snd]
    exact inv_update_metadata s env pid m hInv
  | approval pid d =>
    rw [step, liftUnit_snd]
    exact inv_approve s env pid d hInv
  | createEscrow pid amount =>
    rw [step, liftId_snd]
    exact inv_create_escrow s env pid amount hInv
  | releaseEscrow eid =>
    rw [step, liftUnit_snd]
    exact inv_release_escrow s env eid hInv
  | refundEscrow eid =>
    rw [step, liftUnit_snd]
    exact inv_refund_escrow s env eid hInv
  | setRegistry registry =>
    rw [step, liftUnit_snd]
    exact inv_set_compliance_registry s env registry hInv

theorem regInv_new (d : AccountId) : RegInv (State.new d) := by
  constructor
  · intro p r h
    simp [State.new] at h
  · intro p a h
    simp [State.new] at h
  · intro p r h
    simp [State.new] at h
  · intro e r h
    simp [State.new] at h

theorem regInv_newWithCompliance (d registry : AccountId) :
    RegInv (State.newWithCompliance d registry) := by
  constructor
  · intro p r h
    simp [State.newWithCompliance, State.new] at h
  · intro p a h
    simp [State.newWithCompliance, State.new] at h
  · intro p r h
    simp [State.newWithCompliance, State.new] at h
  · intro e r h
    simp [State.newWithCompliance, State.new] at h

theorem reachable_regInv {s : State} (h : Reachable s) : RegInv s := by
  induction h with
  | init d => exact regInv_new d
  | initWithCompliance d registry => exact regInv_newWithCompliance d registry
  | step c _ ih => exact inv_step _ c.1 c.2 ih

/-! ## Success characterizations -/

theorem liftId_ok (r : CallResult Nat × State) (v : Ret) :
    (liftId r).1 = CallResult.ok v → ∃ n, v = Ret.id n ∧ r.1 = CallResult.ok n := by
  obtain ⟨a, b⟩ := r
  cases a with
  | ok n =>
    intro h
    injection h with h2
    exact ⟨n, h2.symm, rfl⟩
  | err e => intro h; exact CallResult.noConfusion h
  | trap => intro h; exact CallResult.noConfusion h

theorem liftUnit_ok (r : CallResult Unit × State) (v : Ret) :
    (liftUnit r).1 = CallResult.ok v → r.1 = CallResult.ok () := by
  obtain ⟨a, b⟩ := r
  cases a with
  | ok u => intro _; rfl
  | err e => intro h; exact CallResult.noConfusion h
  | trap => intro h; exact CallResult.noConfusion h

/-- A successful `register_property` returns `property_count + 1` and
increments the stored counter to exactly that value. -/
theorem register_property_ok (s : State) (env : Env) (m : PropertyMetadata) (n : Nat) :
    (register_property s env m).1 = CallResult.ok n →
    n = s.property_count + 1 ∧
    ((register_property s env m).2).property_count = s.property_count + 1 := by
  unfold register_property
  try dsimp only
  repeat' split
  all_goals intro h
  all_goals dsimp only at h
  any_goals exact CallResult.noConfusion h
  injection h with h2
  exact ⟨h2.symm, rfl⟩

/-- A successful `transfer_property` requires the caller to own the
property, rewrites the record's owner to the recipient, and clears the
approval entry. -/
theorem transfer_property_ok (s : State) (env : Env) (property_id : Nat) (toAcc : AccountId) :
    (transfer_property s env property_id toAcc).1 = CallResult.ok () →
    ∃ r, s.properties property_id = some r ∧ r.owner = env.caller ∧
      ((transfer_property s env property_id toAcc).2).properties =
        Function.update s.properties property_id (some { r with owner := toAcc }) ∧
      ((transfer_property s env property_id toAcc).2).approvals =
        Function.update s.approvals property_id none := by
  unfold transfer_property
  try dsimp only
  split
  · intro h; exact CallResult.noConfusion h
  case _ property hp =>
    split
    · intro h; exact CallResult.noConfusion h
    case _ hauth =>
      have howner : property.owner = env.caller := by
        by_contra hne
        exact hauth hne
      split
      · intro h; exact CallResult.noConfusion h
      · intro h; exact CallResult.noConfusion h
      intro _
      exact ⟨property, hp, howner, rfl, rfl⟩

/-! ## Traces of successful registrations (for the monotonic-id claim) -/

/-- The property ids returned by the successful `register_property` calls
along a trace, in call order. -/
def regIds (s : State) : List (Env × Op) → List Nat
  | [] => []
  | c :: t =>
    match c.2, (step s c.1 c.2).1 with
    | Op.register _, CallResult.ok (Ret.id n) => n :: regIds (runStep s c) t
    | _, _ => regIds (runStep s c) t

/-- The number of successful `register_property` calls along a trace. -/
def countReg (s : State) : List (Env × Op) → Nat
  | [] => 0
  | c :: t =>
    match c.2, (step s c.1 c.2).1 with
    | Op.register _, CallResult.ok (Ret.id _) => countReg (runStep s c) t + 1
    | _, _ => countReg (runStep s c) t

theorem regIds_cons_skip (s : State) (env : Env) (op : Op) (t : List (Env × Op))
    (hop : ∀ m, op ≠ Op.register m) :
    regIds s ((env, op) :: t) = regIds (runStep s (env, op)) t ∧
    countReg s ((env, op) :: t) = countReg (runStep s (env, op)) t := by
  cases op
  case register m => exact absurd rfl (hop m)
  case transfer pid a =>
    rcases hr : (step s env (Op.transfer pid a)).1 with v | e | _ <;>
      exact ⟨by simp only [regIds, hr], by simp only [countReg, hr]⟩
  case updateMeta pid m =>
    rcases hr : (step s env (Op.updateMeta pid m)).1 with v | e | _ <;>
      exact ⟨by simp only [regIds, hr], by simp only [countReg, hr]⟩
  case approval pid d =>
    rcases hr : (step s env (Op.approval pid d)).1 with v | e | _ <;>
      exact ⟨by simp only [regIds, hr], by simp only [countReg, hr]⟩
  case createEscrow pid amt =>
    rcases hr : (step s env (Op.createEscrow pid amt)).1 with v | e | _ <;>
      exact ⟨by simp only [regIds, hr], by simp only [countReg, hr]⟩
  case releaseEscrow eid =>
    rcases hr : (step s env (Op.releaseEscrow eid)).1 with v | e | _ <;>
      exact ⟨by simp only [regIds, hr], by simp only [countReg, hr]⟩
  case refundEscrow eid =>
    rcases hr : (step s env (Op.refundEscrow eid)).1 with v | e | _ <;>
      exact ⟨by simp only [regIds, hr], by simp only [countReg, hr]⟩
  case setRegistry registry =>
    rcases hr : (step s env (Op.setRegistry registry)).1 with v | e | _ <;>
      exact ⟨by simp only [regIds, hr], by simp only [countReg, hr]⟩

theorem step_pcount (s : State) (env : Env) (op : Op) (hop : ∀ m, op ≠ Op.register m) :
    ((step s env op).2).property_count = s.property_count := by
  cases op
  case register m => exact absurd rfl (hop m)
  case transfer pid a =>
    rw [step, liftUnit_snd]
    exact (transfer_property_frame s env pid a).1
  case updateMeta pid m =>
    rw [step, liftUnit_snd]
    exact (update_metadata_frame s env pid m).2.1
  case approval pid d =>
    rw [step, liftUnit_snd]
    exact (approve_frame s env pid d).2.2.1
  case createEscrow pid amt =>
    rw [step, liftId_snd]
    exact (create_escrow_frame s env pid amt).2.2.1
  case releaseEscrow eid =>
    rw [step, liftUnit_snd]
    exact (release_escrow_frame s env eid).1
  case refundEscrow eid =>
    rw [step, liftUnit_snd]
    exact (refund_escrow_frame s env eid).2.2.1
  case setRegistry registry =>
    rw [step, liftUnit_snd]
    exact (set_compliance_registry_frame s env registry).2.2.1

/-- Along any trace from any state, the successful registration ids are
exactly the consecutive naturals following the starting counter, and the
counter advances by the number of successes. -/
theorem regIds_countReg (t : List (Env × Op)) : ∀ s : State,
    regIds s t = List.range' (s.property_count + 1) (countReg s t) ∧
    (run s t).property_count = s.property_count + countReg s t := by
  induction t with
  | nil => exact fun s => ⟨rfl, rfl⟩
  | cons c t ih =>
    intro s
    obtain ⟨env, op⟩ := c
    by_cases hreg : ∃ m, op = Op.register m
    · obtain ⟨m, rfl⟩ := hreg
      rcases hr : (step s env (Op.register m)).1 with v | e | _
      · have hok := liftId_ok (register_property s env m) v
          (by rw [show liftId (register_property s env m) = step s env (Op.register m) from rfl, hr])
        obtain ⟨n, hv, hokn⟩ := hok
        subst hv
        obtain ⟨hn, hcount⟩ := register_property_ok s env m n hokn
        subst hn
        have hrs : (runStep s (env, Op.register m)).property_count = s.property_count + 1 := by
          show ((step s env (Op.register m)).2).property_count = _
          rw [step, liftId_snd]
          exact hcount
        constructor
        · simp only [regIds, countReg, hr]
          rw [List.range'_succ, (ih _).1, hrs]
        · simp only [run, countReg, hr]
          rw [(ih _).2, hrs]
          omega
      · have hs : runStep s (env, Op.register m) = s :=
          step_fail s env (Op.register m) (by rw [hr]; trivial)
        constructor
        · simp only [regIds, countReg, hr, hs]
          exact (ih s).1
        · simp only [run, countReg, hr, hs]
          exact (ih s).2
      · have hs : runStep s (env, Op.register m) = s :=
          step_fail s env (Op.register m) (by rw [hr]; trivial)
        constructor
        · simp only [regIds, countReg, hr, hs]
          exact (ih s).1
        · simp only [run, countReg, hr, hs]
          exact (ih s).2
    · have hop : ∀ m, op ≠ Op.register m := fun m hm => hreg ⟨m, hm⟩
      have hskip := regIds_cons_skip s env op t hop
      have hpc : (runStep s (env, op)).property_count = s.property_count :=
        step_pcount s env op hop
      constructor
      · rw [hskip.1, hskip.2, (ih _).1, hpc]
      · rw [show run s ((env, op) :: t) = run (runStep s (env, op)) t from rfl,
           hskip.2, (ih _).2, hpc]

/-! ## Concrete scenario states -/

/-- A valid metadata payload (mirrors the repository's tests). -/
def mdEx : PropertyMetadata :=
  ⟨"123 Main St", 1000, "Test property", 1000000, "docs"⟩

/-- An updated metadata payload. -/
def mdUpd : PropertyMetadata :=
  ⟨"456 Oak Ave", 1100, "Updated description", 1100000, "docs2"⟩

/-- Alice is account 10; her calls see a compliant oracle. -/
def envAlice : Env := ⟨10, 5, fun _ _ => some true⟩

/-- Bob is account 11. -/
def envBob : Env := ⟨11, 6, fun _ _ => some true⟩

/-- Alice (account 10) has registered property 1. -/
def sReg : State := run (State.new 10) [(envAlice, Op.register mdEx)]

/-- Property 1 registered by Alice, Bob (11) approved as its delegate. -/
def sApproved : State :=
  run (State.new 10) [(envAlice, Op.register mdEx), (envAlice, Op.approval 1 (some 11))]

/-- Alice registered property 1 and opened escrow 1 with amount 500. -/
def sEscrow : State :=
  run (State.new 10) [(envAlice, Op.register mdEx), (envAlice, Op.createEscrow 1 500)]

/-- Escrow 1 refunded by its seller: a terminal escrow record. -/
def sRefunded : State :=
  run (State.new 10)
    [(envAlice, Op.register mdEx), (envAlice, Op.createEscrow 1 500),
     (envAlice, Op.refundEscrow 1)]

/-- Escrow 1 open but the property since transferred to account 20:
the escrow's recorded parties are stale. -/
def sStale : State :=
  run (State.new 10)
    [(envAlice, Op.register mdEx), (envAlice, Op.createEscrow 1 500),
     (envAlice, Op.transfer 1 20)]

theorem reachable_run (s : State) (h : Reachable s) (t : List (Env × Op)) :
    Reachable (run s t) := by
  induction t generalizing s with
  | nil => exact h
  | cons c t ih => exact ih _ (Reachable.step c h)

theorem reachable_sReg : Reachable sReg :=
  reachable_run _ (Reachable.init 10) _

theorem reachable_sRefunded : Reachable sRefunded :=
  reachable_run _ (Reachable.init 10) _

/-! ## Claim theorems -/

/-- C1: in every reachable state, a property record with owner `A` is
indexed under `A` in the ownership index and under no other account.
(The reachability relation covers all eight public mutating calls, a
superset of the six operations named by the claim.) -/
theorem ownership_index_consistency (s : State) (h : Reachable s) (p : Nat)
    (r : PropertyInfo) (hget : get_property s p = some r) :
    p ∈ get_owner_properties s r.owner ∧
    ∀ b, b ≠ r.owner → p ∉ get_owner_properties s b := by
  have hInv := reachable_regInv h
  unfold get_property at hget
  unfold get_owner_properties
  refine ⟨hInv.rec_index p r hget, ?_⟩
  intro b hb hmem
  obtain ⟨r2, hr2, hro2⟩ := hInv.index_rec p b hmem
  rw [hget] at hr2
  injection hr2 with h2
  subst h2
  exact hb hro2.symm

theorem ownership_index_consistency_witness :
    1 ∈ get_owner_properties sReg 10 :=
  (ownership_index_consistency sReg reachable_sReg 1 ⟨1, 10, mdEx, 5⟩ rfl).1

/-- C2: any public call that returns an `Err` leaves the entire state
unchanged; in particular, when the transfer embedded in `release_escrow`
fails, the escrow stays un-released and the transfer's error is
returned unwrapped. -/
theorem error_atomicity :
    (∀ (s : State) (env : Env) (op : Op) (e : Error),
        (step s env op).1 = CallResult.err e → (step s env op).2 = s) ∧
    (∀ (s : State) (env : Env) (escrow_id : Nat) (escrow : EscrowInfo) (e : Error),
        s.escrows escrow_id = some escrow → escrow.released = false →
        escrow.buyer = env.caller →
        (transfer_property s env escrow.property_id escrow.buyer).1 = CallResult.err e →
        release_escrow s env escrow_id = (CallResult.err e, s)) := by
  constructor
  · intro s env op e h
    exact step_fail s env op (by rw [h]; trivial)
  · intro s env escrow_id escrow e hesc hrel hbuyer htr
    rcases htp : transfer_property s env escrow.property_id escrow.buyer with ⟨r1, s1⟩
    rw [htp] at htr
    dsimp only at htr
    subst htr
    have hs1 : s1 = s := by
      have h2 := transfer_property_fail s env escrow.property_id escrow.buyer
        (by rw [htp]; trivial)
      rw [htp] at h2
      exact h2
    subst hs1
    unfold release_escrow
    rw [hesc]
    dsimp only
    rw [if_neg (by rw [hrel]; exact Bool.false_ne_true),
        if_neg (fun hne => hne hbuyer), htp]

theorem error_atomicity_witness :
    release_escrow sStale envAlice 1 = (CallResult.err Error.Unauthorized, sStale) :=
  error_atomicity.2 sStale envAlice 1 ⟨1, 1, 10, 10, 500, false⟩
    Error.Unauthorized rfl rfl rfl rfl

/-- C3 (code bug): the claim says a transfer by the currently-approved
delegate is authorized, but `transfer_property` in src/ rejects every
caller other than the recorded owner with `Unauthorized` — here Bob
(account 11), the approved delegate for property 1, is rejected and the
state is unchanged.  The repository's own test `approval_work`
(tests.rs) expects this delegate transfer to succeed. -/
theorem transfer_delegate_unauthorized :
    get_property sApproved 1 = some ⟨1, 10, mdEx, 5⟩ ∧
    get_approved sApproved 1 = some 11 ∧
    transfer_property sApproved envBob 1 12 =
      (CallResult.err Error.Unauthorized, sApproved) :=
  ⟨rfl, rfl, rfl⟩

/-- C4 (code bug): the compliance gate passes with no registry
configured, maps an oracle answer of `false` to `NotCompliant` and
`true` to success — but a transport/oracle failure of the
cross-contract call makes `invoke()` panic (a trap), and the error
`ComplianceCheckFailed` is never returned by the gate on any input. -/
theorem compliance_gate_behaviour :
    (∀ (s : State) (env : Env) (account : AccountId),
        s.compliance_registry = none →
        check_compliance s env account = CallResult.ok ()) ∧
    (∀ (s : State) (env : Env) (account registry : AccountId),
        s.compliance_registry = some registry →
        env.oracle registry account = some true →
        check_compliance s env account = CallResult.ok ()) ∧
    (∀ (s : State) (env : Env) (account registry : AccountId),
        s.compliance_registry = some registry →
        env.oracle registry account = some false →
        check_compliance s env account = CallResult.err Error.NotCompliant) ∧
    (∀ (s : State) (env : Env) (account registry : AccountId),
        s.compliance_registry = some registry →
        env.oracle registry account = none →
        check_compliance s env account = CallResult.trap) ∧
    (∀ (s : State) (env : Env) (account : AccountId),
        check_compliance s env account ≠ CallResult.err Error.ComplianceCheckFailed) := by
  refine ⟨?_, ?_, ?_, ?_, ?_⟩
  · intro s env a h
    unfold check_compliance
    rw [h]
  · intro s env a registry h ho
    unfold check_compliance
    rw [h]
    dsimp only
    rw [ho]
  · intro s env a registry h ho
    unfold check_compliance
    rw [h]
    dsimp only
    rw [ho]
  · intro s env a registry h ho
    unfold check_compliance
    rw [h]
    dsimp only
    rw [ho]
  · intro s env a h
    unfold check_compliance at h
    rcases hcr : s.compliance_registry with _ | registry <;> rw [hcr] at h
    · exact CallResult.noConfusion h
    · dsimp only at h
      rcases ho : env.oracle registry a with _ | b <;> rw [ho] at h
      · exact CallResult.noConfusion h
      · cases b
        · injection h with h2
          exact Error.noConfusion h2
        · exact CallResult.noConfusion h

theorem compliance_gate_behaviour_witness :
    check_compliance (State.newWithCompliance 10 5) ⟨10, 0, fun _ _ => none⟩ 7 =
      CallResult.trap :=
  compliance_gate_behaviour.2.2.2.1 (State.newWithCompliance 10 5)
    ⟨10, 0, fun _ _ => none⟩ 7 5 rfl rfl

theorem step_preserves_terminal_escrow (s : State) (hInv : RegInv s) (e : Nat)
    (r : EscrowInfo) (hesc : s.escrows e = some r) (hrel : r.released = true)
    (env : Env) (op : Op) : ((step s env op).2).escrows e = some r := by
  cases op with
  | register m =>
    rw [step, liftId_snd, (register_property_frame s env m).1, hesc]
  | transfer pid a =>
    rw [step, liftUnit_snd, (transfer_property_frame s env pid a).2.1, hesc]
  | updateMeta pid m =>
    rw [step, liftUnit_snd, (update_metadata_frame s env pid m).2.2.1, hesc]
  | approval pid d =>
    rw [step, liftUnit_snd, (approve_frame s env pid d).2.2.2.1, hesc]
  | setRegistry registry =>
    rw [step, liftUnit_snd, (set_compliance_registry_frame s env registry).2.2.2.1, hesc]
  | createEscrow pid amt =>
    rw [step, liftId_snd]
    unfold create_escrow
    try dsimp only
    repeat' split
    any_goals exact hesc
    have hb := hInv.escrow_bound e r hesc
    dsimp only
    rw [Function.update_noteq (by omega)]
    exact hesc
  | refundEscrow eid =>
    rw [step, liftUnit_snd]
    unfold refund_escrow
    try dsimp only
    split
    · exact hesc
    case _ escrow2 heq2 =>
      split
      · exact hesc
      case _ hrel2 =>
        split
        · exact hesc
        dsimp only
        by_cases hee : e = eid
        · subst hee
          rw [hesc] at heq2
          injection heq2 with h2
          subst h2
          exact absurd hrel hrel2
        · rw [Function.update_noteq hee]
          exact hesc
  | releaseEscrow eid =>
    rw [step, liftUnit_snd]
    unfold release_escrow
    try dsimp only
    split
    · exact hesc
    case _ escrow2 heq2 =>
      split
      · exact hesc
      case _ hrel2 =>
        split
        · exact hesc
        split
        case _ e2 s1 htp =>
          have h2 := transfer_property_fail s env escrow2.property_id escrow2.buyer
            (by rw [htp]; trivial)
          rw [htp] at h2
          dsimp only at h2 ⊢
          rw [h2]
          exact hesc
        case _ s1 htp =>
          have h2 := transfer_property_fail s env escrow2.property_id escrow2.buyer
            (by rw [htp]; trivial)
          rw [htp] at h2
          dsimp only at h2 ⊢
          rw [h2]
          exact hesc
        case _ a s1 htp =>
          have hfr := (transfer_property_frame s env escrow2.property_id escrow2.buyer).2.1
          rw [htp] at hfr
          dsimp only at hfr ⊢
          by_cases hee : e = eid
          · subst hee
            rw [hesc] at heq2
            injection heq2 with h2
            subst h2
            exact absurd hrel hrel2
          · rw [Function.update_noteq hee, hfr]
            exact hesc

/-- C5: a terminal escrow (released flag set) is absorbing — both
`release_escrow` and `refund_escrow` fail on it with
`EscrowAlreadyReleased` for every caller, and no public operation
mutates its record. -/
theorem escrow_terminal_absorbing (s : State) (h : Reachable s) (e : Nat)
    (r : EscrowInfo) (hget : get_escrow s e = some r) (hrel : r.released = true) :
    (∀ env : Env,
        (release_escrow s env e).1 = CallResult.err Error.EscrowAlreadyReleased ∧
        (refund_escrow s env e).1 = CallResult.err Error.EscrowAlreadyReleased) ∧
    (∀ (env : Env) (op : Op), get_escrow ((step s env op).2) e = some r) := by
  have hInv := reachable_regInv h
  unfold get_escrow at hget
  constructor
  · intro env
    constructor
    · unfold release_escrow
      rw [hget]
      dsimp only
      rw [if_pos hrel]
    · unfold refund_escrow
      rw [hget]
      dsimp only
      rw [if_pos hrel]
  · intro env op
    unfold get_escrow
    exact step_preserves_terminal_escrow s hInv e r hget hrel env op

theorem escrow_terminal_absorbing_witness :
    (release_escrow sRefunded envAlice 1).1 =
      CallResult.err Error.EscrowAlreadyReleased :=
  ((escrow_terminal_absorbing sRefunded reachable_sRefunded 1
    ⟨1, 1, 10, 10, 500, true⟩ rfl rfl).1 envAlice).1

/-- C6: from a fresh contract, the ids returned by the successful
`register_property` calls of any trace are exactly `[1, 2, ..., k]`
(strictly increasing, starting at 1, never 0, never reused), and
`property_count()` always equals the number `k` of successful
registrations so far. -/
theorem monotonic_property_ids (d : AccountId) (t : List (Env × Op)) :
    regIds (State.new d) t = List.range' 1 (countReg (State.new d) t) ∧
    property_count (run (State.new d) t) = countReg (State.new d) t := by
  have h := regIds_countReg t (State.new d)
  unfold property_count
  simpa [State.new] using h

/-- C7: `create_escrow` fails with `PropertyNotFound` on an unknown
property and with `Unauthorized` for a non-owner caller; on success it
returns the fresh id `escrow_count + 1` (previously unassigned) and
stores a record with `buyer = caller`, `seller = ` the property's
current owner (hence buyer = seller), the supplied amount, and
`released = false`. -/
theorem create_escrow_spec (s : State) (env : Env) (property_id amount : Nat)
    (h : Reachable s) :
    (s.properties property_id = none →
      create_escrow s env property_id amount = (CallResult.err Error.PropertyNotFound, s)) ∧
    (∀ r, s.properties property_id = some r → r.owner ≠ env.caller →
      create_escrow s env property_id amount = (CallResult.err Error.Unauthorized, s)) ∧
    (∀ n, (create_escrow s env property_id amount).1 = CallResult.ok n →
      n = s.escrow_count + 1 ∧ get_escrow s n = none ∧
      ∃ r, s.properties property_id = some r ∧ r.owner = env.caller ∧
        get_escrow ((create_escrow s env property_id amount).2) n =
          some ⟨n, property_id, env.caller, r.owner, amount, false⟩) := by
  have hInv := reachable_regInv h
  refine ⟨?_, ?_, ?_⟩
  · intro hnone
    unfold create_escrow
    rw [hnone]
  · intro r hr hro
    unfold create_escrow
    rw [hr]
    dsimp only
    rw [if_pos hro]
  · intro n hok
    unfold create_escrow at hok ⊢
    rcases hp : s.properties property_id with _ | r
    · rw [hp] at hok
      exact CallResult.noConfusion hok
    · rw [hp] at hok
      dsimp only at hok ⊢
      by_cases hro : r.owner ≠ env.caller
      · rw [if_pos hro] at hok
        exact CallResult.noConfusion hok
      · rw [if_neg hro] at hok ⊢
        by_cases hovf : s.escrow_count + 1 ≥ u64Mod
        · rw [if_pos hovf] at hok
          exact CallResult.noConfusion hok
        · rw [if_neg hovf] at hok ⊢
          dsimp only at hok ⊢
          injection hok with h2
          subst h2
          refine ⟨rfl, ?_, r, rfl, not_not.mp hro, ?_⟩
          · unfold get_escrow
            rcases he : s.escrows (s.escrow_count + 1) with _ | r2
            · rfl
            · have := hInv.escrow_bound _ _ he
              omega
          · unfold get_escrow
            dsimp only
            rw [Function.update_same, not_not.mp hro]

theorem create_escrow_spec_witness :
    get_escrow ((create_escrow sReg envAlice 1 500).2) 1 =
      some ⟨1, 1, 10, 10, 500, false⟩ := by
  obtain ⟨hn, hfresh, r, hr, hro, hget⟩ :=
    (create_escrow_spec sReg envAlice 1 500 reachable_sReg).2.2 1 rfl
  have hrv : r = ⟨1, 10, mdEx, 5⟩ := by
    have h2 : sReg.properties 1 = some ⟨1, 10, mdEx, 5⟩ := rfl
    rw [h2] at hr
    injection hr with h3
    exact h3.symm
  rw [hrv] at hget
  exact hget

/-- C8 (modelled from the spec; the body of `update_metadata` is absent
from src/): fails with `PropertyNotFound` on an unknown id, with
`Unauthorized` for every caller other than the owner (so an approved
delegate is not sufficient), with `InvalidMetadata` on an empty
`location` leaving the state untouched, and otherwise overwrites the
metadata. -/
theorem update_metadata_spec (s : State) (env : Env) (property_id : Nat)
    (m : PropertyMetadata) :
    (s.properties property_id = none →
      update_metadata s env property_id m = (CallResult.err Error.PropertyNotFound, s)) ∧
    (∀ r, s.properties property_id = some r → r.owner ≠ env.caller →
      update_metadata s env property_id m = (CallResult.err Error.Unauthorized, s)) ∧
    (∀ r, s.properties property_id = some r → r.owner = env.caller →
      m.location = "" →
      update_metadata s env property_id m = (CallResult.err Error.InvalidMetadata, s)) ∧
    (∀ r, s.properties property_id = some r → r.owner = env.caller →
      m.location ≠ "" →
      update_metadata s env property_id m =
        (CallResult.ok (),
          { s with properties :=
              Function.update s.properties property_id (some { r with metadata := m }) })) := by
  refine ⟨?_, ?_, ?_, ?_⟩
  · intro hnone
    unfold update_metadata
    rw [hnone]
  · intro r hr hro
    unfold update_metadata
    rw [hr]
    dsimp only
    rw [if_pos hro]
  · intro r hr hro hloc
    unfold update_metadata
    rw [hr]
    dsimp only
    rw [if_neg (fun hne => hne hro), if_pos hloc]
  · intro r hr hro hloc
    unfold update_metadata
    rw [hr]
    dsimp only
    rw [if_neg (fun hne => hne hro), if_neg hloc]

theorem update_metadata_spec_witness :
    update_metadata sReg envAlice 1 mdUpd =
      (CallResult.ok (),
        { sReg with properties :=
            Function.update sReg.properties 1 (some ⟨1, 10, mdUpd, 5⟩) }) :=
  (update_metadata_spec sReg envAlice 1 mdUpd).2.2.2 ⟨1, 10, mdEx, 5⟩ rfl rfl
    (by decide)

/-- C9 (approval component modelled from the spec; its map, `approve`
and `get_approved` are absent from src/): every successful transfer of
a property clears its approval entry, and `approve` rejects every
caller other than the current owner with `Unauthorized`. -/
theorem approval_cleared_on_transfer :
    (∀ (s : State) (env : Env) (property_id : Nat) (toAcc : AccountId),
        (transfer_property s env property_id toAcc).1 = CallResult.ok () →
        get_approved ((transfer_property s env property_id toAcc).2) property_id = none) ∧
    (∀ (s : State) (env : Env) (property_id : Nat) (d : Option AccountId)
        (r : PropertyInfo),
        s.properties property_id = some r → r.owner ≠ env.caller →
        approve s env property_id d = (CallResult.err Error.Unauthorized, s)) := by
  constructor
  · intro s env property_id toAcc hok
    obtain ⟨r, hr, hro, hprops, happr⟩ := transfer_property_ok s env property_id toAcc hok
    unfold get_approved
    rw [happr, Function.update_same]
  · intro s env property_id d r hr hro
    unfold approve
    rw [hr]
    dsimp only
    rw [if_pos hro]

theorem approval_cleared_on_transfer_witness :
    get_approved ((transfer_property sApproved envAlice 1 11).2) 1 = none :=
  approval_cleared_on_transfer.1 sApproved envAlice 1 11 rfl

/-- C10 (implicit): a successful `release_escrow` never moves the
property: the escrow's buyer is the creating caller, the embedded
transfer targets the buyer and requires the caller to own the property,
so the transfer is from the buyer to themselves and the stored record
is unchanged. -/
theorem release_preserves_ownership (s : State) (env : Env) (escrow_id : Nat)
    (escrow : EscrowInfo) (hesc : s.escrows escrow_id = some escrow)
    (hok : (release_escrow s env escrow_id).1 = CallResult.ok ()) :
    get_property ((release_escrow s env escrow_id).2) escrow.property_id =
      get_property s escrow.property_id := by
  unfold release_escrow at hok ⊢
  rw [hesc] at hok ⊢
  dsimp only at hok ⊢
  by_cases hrel : escrow.released = true
  · rw [if_pos hrel] at hok
    exact CallResult.noConfusion hok
  · rw [if_neg hrel] at hok ⊢
    by_cases hbuy : escrow.buyer ≠ env.caller
    · rw [if_pos hbuy] at hok
      exact CallResult.noConfusion hok
    · rw [if_neg hbuy] at hok ⊢
      have hbuyer : escrow.buyer = env.caller := not_not.mp hbuy
      rcases htp : transfer_property s env escrow.property_id escrow.buyer with ⟨r1, s1⟩
      rw [htp] at hok
      cases r1 with
      | err e => exact CallResult.noConfusion hok
      | trap => exact CallResult.noConfusion hok
      | ok u =>
        have htr1 : (transfer_property s env escrow.property_id escrow.buyer).1 =
            CallResult.ok () := by
          rw [htp]
        obtain ⟨r, hr, hro, hprops, happr⟩ :=
          transfer_property_ok s env escrow.property_id escrow.buyer htr1
        unfold get_property
        dsimp only
        rw [show s1 = (transfer_property s env escrow.property_id escrow.buyer).2 from
              by rw [htp]]
        rw [hprops, Function.update_same, hr, hbuyer, ← hro]

theorem release_preserves_ownership_witness :
    get_property ((release_escrow sEscrow envAlice 1).2) 1 = get_property sEscrow 1 :=
  release_preserves_ownership sEscrow envAlice 1 ⟨1, 1, 10, 10, 500, false⟩ rfl rfl

end PropChain
